import Mathlib

/-!
Shallow embedding of the novelty-detection and scan-scheduling core of the
eBayScanner repository: the seen-item cache (src/item-cache.js), the
classification/notification loops (src/index.js, src/eBayScanner.js) and the
timer-based scan scheduler (src/index.js, src/eBayScanner.js).

JavaScript values are modelled as follows: a JS Set of strings becomes an
insertion-ordered duplicate-free List String (Set.add appends when absent);
a JS Map becomes an association list whose set/get act on the first matching
key; numbers that hold epoch milliseconds become Int; fallible operations
take their outcome as an explicit argument.
-/

namespace EbayScanner

/-- A JS Set of strings, insertion ordered: add appends the element when it is
not already present (models Set.prototype.add). -/
def setAdd (s : List String) (x : String) : List String :=
  if x ∈ s then s else s ++ [x]

/-- The value stored per cache key: the set of already-seen item identifiers. -/
abbrev SeenSet := List String

/-- The in-memory cache of ItemCache (src/item-cache.js line 6): a Map from
"type:identifier" keys to sets of item ids, as an association list. -/
abbrev Cache := List (String × SeenSet)

/-- Map.prototype.set: replace the first entry with the given key, or append a
new entry when the key is absent. -/
def cacheSet (c : Cache) (k : String) (v : SeenSet) : Cache :=
  match c with
  | [] => [(k, v)]
  | (k0, v0) :: rest => if k0 = k then (k, v) :: rest else (k0, v0) :: cacheSet rest k v

/-- getCacheKey (src/item-cache.js lines 44-46). -/
def getCacheKey (ty identifier : String) : String := ty ++ ":" ++ identifier

/-- The set recorded under a key, empty when the key is absent. -/
def seenOf (c : Cache) (k : String) : SeenSet := (List.lookup k c).getD []

/-- isFirstScan (src/item-cache.js lines 53-56): true iff the key has no record
or an empty set. -/
def isFirstScan (c : Cache) (ty identifier : String) : Bool :=
  match List.lookup (getCacheKey ty identifier) c with
  | none => true
  | some s => s.isEmpty

/-- Result of one isNewItem call: the cache afterwards, the returned Bool, and
whether the call triggered a saveCache. -/
structure CheckOutcome where
  cache : Cache
  result : Bool
  persistTriggered : Bool
deriving Repr, DecidableEq

/-- isNewItem (src/item-cache.js lines 58-70), the mark-on-check variant: an
absent key first gets an empty set; a not-yet-seen item id is added to the set,
saveCache is triggered and true is returned; otherwise false. -/
def isNewItem (c : Cache) (ty identifier itemId : String) : CheckOutcome :=
  let key := getCacheKey ty identifier
  let c1 := if (List.lookup key c).isSome then c else cacheSet c key []
  let seenItems := seenOf c1 key
  if itemId ∈ seenItems then
    { cache := c1, result := false, persistTriggered := false }
  else
    { cache := cacheSet c1 key (setAdd seenItems itemId), result := true,
      persistTriggered := true }

/-- isNewItem of the check-only ItemCache variant (src/unnamed/part_000 lines
58-62): pure membership test, no mutation. -/
def isNewItemCheckOnly (c : Cache) (ty identifier itemId : String) : Bool :=
  !(decide (itemId ∈ seenOf c (getCacheKey ty identifier)))

/-- updateSeenItems (src/item-cache.js lines 72-80): union the given item ids
into the set stored under the key, then persist. The part_000 variant (lines
64-74) computes the same final cache. -/
def updateSeenItems (c : Cache) (ty identifier : String) (itemIds : List String) : Cache :=
  let key := getCacheKey ty identifier
  let c1 := if (List.lookup key c).isSome then c else cacheSet c key []
  cacheSet c1 key (itemIds.foldl setAdd (seenOf c1 key))

/-! Age-based eviction: clearOldItems (src/item-cache.js lines 82-99). The
embedded timestamp is read with parseInt(itemId.split('-')[1] || '0'). -/

/-- String.prototype.split with separator "-", on a list of characters. -/
def splitDashAux : List Char → List Char → List (List Char)
  | [], cur => [cur.reverse]
  | ch :: rest, cur =>
      if ch = '-' then cur.reverse :: splitDashAux rest [] else splitDashAux rest (ch :: cur)

/-- itemId.split('-') as a list of segments. -/
def splitDash (s : String) : List (List Char) := splitDashAux s.data []

/-- Accumulate the leading run of decimal digits (parseInt stops at the first
non-digit character). -/
def parseDigitsAux : List Char → Nat → Nat
  | [], acc => acc
  | ch :: rest, acc =>
      if ch.isDigit then parseDigitsAux rest (acc * 10 + (ch.toNat - 48)) else acc

/-- JS parseInt in base 10: skip leading whitespace, take an optional sign,
then the maximal leading run of decimal digits; none models NaN (no digits). -/
def jsParseInt (chars : List Char) : Option Int :=
  let trimmed := chars.dropWhile (fun ch => ch = ' ' ∨ ch = '\t' ∨ ch = '\n' ∨ ch = '\r')
  match trimmed with
  | '-' :: rest =>
      match rest with
      | [] => none
      | ch :: _ => if ch.isDigit then some (-(parseDigitsAux rest 0 : Int)) else none
  | '+' :: rest =>
      match rest with
      | [] => none
      | ch :: _ => if ch.isDigit then some ((parseDigitsAux rest 0 : Int)) else none
  | rest =>
      match rest with
      | [] => none
      | ch :: _ => if ch.isDigit then some ((parseDigitsAux rest 0 : Int)) else none

/-- The timestamp clearOldItems reads out of an item id (src/item-cache.js line
88): parseInt(itemId.split('-')[1] || '0'). A missing or empty second segment
falls back to the string '0', which parses to 0. -/
def embeddedTimestamp (itemId : String) : Option Int :=
  let seg := (splitDash itemId).getD 1 []
  jsParseInt (if seg.isEmpty then ['0'] else seg)

/-- The filter predicate of clearOldItems (line 89): now - timestamp > maxAgeMs.
A NaN timestamp makes the comparison false, so the item is kept. -/
def shouldEvict (now maxAgeMs : Int) (itemId : String) : Bool :=
  match embeddedTimestamp itemId with
  | none => false
  | some ts => decide (now - ts > maxAgeMs)

/-- Per-key body of clearOldItems (lines 86-95): collect the old items; when
there are any, keep only the ids not among them. -/
def clearOldKey (now maxAgeMs : Int) (seenItems : SeenSet) : SeenSet :=
  let oldItems := seenItems.filter (fun itemId => shouldEvict now maxAgeMs itemId)
  if oldItems.isEmpty then seenItems
  else seenItems.filter (fun itemId => !(oldItems.contains itemId))

/-- clearOldItems (src/item-cache.js lines 82-99): maxAgeMs is
maxAgeHours * 60 * 60 * 1000; every key's set is filtered by age. -/
def clearOldItems (c : Cache) (now : Int) (maxAgeHours : Int) : Cache :=
  let maxAgeMs := maxAgeHours * 60 * 60 * 1000
  c.map (fun kv => (kv.1, clearOldKey now maxAgeMs kv.2))

/-! Classification and notification: the per-scan loops of src/index.js
(checkEbayStore lines 125-139, checkEbaySearch lines 233-247) and the
collect-then-notify variant of src/eBayScanner.js (checkEbaySearchAPI lines
569-642). -/

/-- One listing as extracted from a source; only the source-assigned id takes
part in novelty decisions. -/
structure RawItem where
  id : String
  title : String
deriving Repr, DecidableEq

/-- The collection loop of checkEbaySearchAPI (src/eBayScanner.js lines
569-627): walk the fetched items in order, query isNewItem for each, and append
the new ones to newItemsList. Returns the cache afterwards and newItemsList. -/
def collectNewItems (ty identifier : String) : Cache → List RawItem → Cache × List RawItem
  | c, [] => (c, [])
  | c, item :: rest =>
      let chk := isNewItem c ty identifier item.id
      let r := collectNewItems ty identifier chk.cache rest
      if chk.result then (r.1, item :: r.2) else r

/-- Result of one store/search scan: the cache afterwards, the count of new
items, and the items passed to sendDiscordNotification, in dispatch order. -/
structure ScanResult where
  cache : Cache
  newCount : Nat
  notified : List RawItem
deriving Repr, DecidableEq

/-- The interleaved classification/notification loop of checkEbayStore
(src/index.js lines 122-134): each item is checked with isNewItem; a new item
is notified only when !isFirstRun || notifiedItems < 2, and notifiedItems
counts only dispatched items. -/
def storeScanLoop (firstRun : Bool) (ty identifier : String) :
    Cache → Nat → Nat → List RawItem → ScanResult
  | c, newItems, _, [] => { cache := c, newCount := newItems, notified := [] }
  | c, newItems, notifiedItems, item :: rest =>
      let chk := isNewItem c ty identifier item.id
      if chk.result then
        if !firstRun || decide (notifiedItems < 2) then
          let r := storeScanLoop firstRun ty identifier chk.cache (newItems + 1)
                    (notifiedItems + 1) rest
          { r with notified := item :: r.notified }
        else
          storeScanLoop firstRun ty identifier chk.cache (newItems + 1) notifiedItems rest
      else
        storeScanLoop firstRun ty identifier chk.cache newItems notifiedItems rest

/-- checkEbayStore (src/index.js lines 64-151) restricted to its novelty and
notification decisions: the loop starts with newItems = 0, notifiedItems = 0. -/
def checkEbayStore (firstRun : Bool) (c : Cache) (storeName : String)
    (items : List RawItem) : ScanResult :=
  storeScanLoop firstRun "store" storeName c 0 0 items

/-- The count logged by the suppression note of checkEbayStore (src/index.js
lines 137-139): when isFirstRun and newItems > 2, newItems - 2 additional items
are reported as found but not notified. -/
def suppressedLogCount (firstRun : Bool) (newItems : Nat) : Nat :=
  if firstRun && decide (newItems > 2) then newItems - 2 else 0

/-- The notification gate of checkEbaySearchAPI (src/eBayScanner.js lines
629-642): itemsToNotify = isFirstRun ? newItemsList.slice(0, 2) : newItemsList,
dispatched in list order. Returns (cache, newItemsList, itemsToNotify). -/
def checkEbaySearchAPI (firstRun : Bool) (c : Cache) (searchName : String)
    (items : List RawItem) : Cache × List RawItem × List RawItem :=
  let r := collectNewItems "search" searchName c items
  let itemsToNotify := if firstRun then r.2.take 2 else r.2
  (r.1, r.2, itemsToNotify)

/-! Persistence: saveCache serialization (src/item-cache.js lines 31-42) and
loadCache deserialization (lines 13-29). -/

/-- The persisted JSON document: a plain object mapping each cache key to an
array of item ids. -/
abbrev PersistedDoc := List (String × List String)

/-- The serialization step of saveCache (lines 34-37): each Set becomes
Array.from(set), which lists its elements in insertion order. -/
def serializeCache (c : Cache) : PersistedDoc := c.map (fun kv => (kv.1, kv.2))

/-- new Set(array) (line 22): fold the array into a fresh set, deduplicating
while keeping first occurrences. -/
def jsNewSet (l : List String) : SeenSet := l.foldl setAdd []

/-- The deserialization step of loadCache (lines 19-23) applied to a parsed
document: each array becomes new Set(value). -/
def loadCacheDoc (doc : PersistedDoc) : Cache :=
  doc.map (fun kv => (kv.1, jsNewSet kv.2))

/-- Outcome of reading the persisted cache file: the read can reject, the
JSON.parse can throw (parsed = none), or a document is obtained. -/
inductive ReadResult where
  | readFailed (msg : String)
  | contents (parsed : Option PersistedDoc)

/-- loadCache (src/item-cache.js lines 13-29): any error while reading or
parsing is caught by the single catch and yields a fresh empty Map. -/
def loadCache : ReadResult → Cache
  | .readFailed _ => []
  | .contents none => []
  | .contents (some doc) => loadCacheDoc doc

/-- Outcome of saveCache (src/item-cache.js lines 31-42): the write either
succeeds or its error is caught and logged; the in-memory Map is not touched
in either branch and no exception escapes. -/
structure SaveOutcome where
  memory : Cache
  errorLogged : Bool
  exceptionEscaped : Bool
deriving Repr, DecidableEq

/-- saveCache, parametrized by whether the fs.writeFile succeeds. -/
def saveCache (c : Cache) (writeOk : Bool) : SaveOutcome :=
  if writeOk then
    { memory := c, errorLogged := false, exceptionEscaped := false }
  else
    { memory := c, errorLogged := true, exceptionEscaped := false }

/-! Scan scheduling (src/index.js lines 605-674, src/eBayScanner.js lines
1160-1266): per-target timers with jittered delays, self-rearming after every
run, error handling at the run boundary. -/

/-- A monitored store or search as read from the configuration. -/
structure Target where
  name : String
  interval : Nat
deriving Repr, DecidableEq

/-- getRandomDelay(min, max) (src/index.js lines 605-607): Math.floor of
Math.random() * (max - min + 1) plus min; the floor is one of the
max - min + 1 values 0..max-min, modelled as a Fin. -/
def getRandomDelay (mn mx : Nat) (randFloor : Fin (mx - mn + 1)) : Nat :=
  randFloor.val + mn

/-- The delay armed by scheduleNextStoreScan / scheduleNextSearchScan
(src/index.js line 660, src/eBayScanner.js line 1243):
interval * 60 * 1000 + delay * 1000 milliseconds. -/
def nextScanDelayMs (interval jitterSeconds : Nat) : Nat :=
  interval * 60 * 1000 + jitterSeconds * 1000

/-- The outcome of one awaited scan attempt: either the fetched items or a
raised fetch/parse error. -/
inductive ScanOutcome where
  | success (items : List RawItem)
  | fetchError (msg : String)

/-- What one timer callback of scheduleNextStoreScan (src/eBayScanner.js lines
1231-1244) does once its scan attempt resolves. -/
structure CallbackResult where
  errorLogged : Bool
  errorChannelNotified : Bool
  processTerminated : Bool
  rescheduledDelayMs : Option Nat
deriving Repr, DecidableEq

/-- The body of the async timer callback in scheduleNextStoreScan
(src/eBayScanner.js lines 1231-1244): the awaited checkStoreListings sits in a
try/catch whose catch logs and sends an error notification; in both branches
the callback then calls scheduleNextStoreScan again, arming a fresh timer. -/
def scanTimerCallback (outcome : ScanOutcome) (tgt : Target) (jitterSeconds : Nat) :
    CallbackResult :=
  match outcome with
  | .success _ =>
      { errorLogged := false, errorChannelNotified := false, processTerminated := false,
        rescheduledDelayMs := some (nextScanDelayMs tgt.interval jitterSeconds) }
  | .fetchError _ =>
      { errorLogged := true, errorChannelNotified := true, processTerminated := false,
        rescheduledDelayMs := some (nextScanDelayMs tgt.interval jitterSeconds) }

/-- The per-target timer table: each enabled target owns its own pending
setTimeout; rearming one target replaces only its own entry. -/
abbrev TimerTable := List (String × Nat)

/-- Re-arm the named target's timer with a new delay, leaving every other
target's pending timer untouched. -/
def rearmTarget (table : TimerTable) (name : String) (delayMs : Nat) : TimerTable :=
  match table with
  | [] => [(name, delayMs)]
  | (n0, d0) :: rest =>
      if n0 = name then (name, delayMs) :: rest else (n0, d0) :: rearmTarget rest name delayMs

/-! Run/reschedule ordering (claim C7). All times are in milliseconds.

In src/index.js the rescheduling callback (lines 655-660) calls
checkEbayStore(store) — an async function — WITHOUT awaiting it and then calls
scheduleNextStoreScan on the next line of the same synchronous callback, so
the next timer is armed at the tick the run starts. In src/eBayScanner.js the
callback (lines 1231-1244) awaits the check inside try/catch and only then
calls scheduleNextStoreScan, so the next timer is armed when the run has
finished. -/

/-- Timing facts of one cycle: when the run starts and finishes, when the next
timer is armed, and when the next run will start. -/
structure RunTiming where
  runStart : Nat
  runFinish : Nat
  armTime : Nat
  nextRunStart : Nat
deriving Repr, DecidableEq

/-- Cycle timing of the src/index.js variant (lines 655-660): checkEbayStore is
started but not awaited; scheduleNextStoreScan runs in the same tick, so the
timer is armed at runStart and fires delayMs later regardless of the run. -/
def runCycleUnawaited (start duration delayMs : Nat) : RunTiming :=
  { runStart := start, runFinish := start + duration,
    armTime := start, nextRunStart := start + delayMs }

/-- Cycle timing of the src/eBayScanner.js variant (lines 1231-1244): the
callback awaits the check, so scheduleNextStoreScan runs when the check has
resolved and the timer fires delayMs after the finish. -/
def runCycleAwaited (start duration delayMs : Nat) : RunTiming :=
  { runStart := start, runFinish := start + duration,
    armTime := start + duration, nextRunStart := start + duration + delayMs }

/-! The process-lifetime first-run flag (claim C8). src/index.js line 35
declares one module-global boolean isFirstRun = true shared by every store and
search; the rescheduling callbacks (lines 656 and 669) assign
isFirstRun = false at the start of any target's first rescheduled run. -/

/-- A scan firing for some target: either the initial-delay run armed by
startMonitoring (src/index.js lines 623-627) or a rescheduled run armed by
scheduleNextStoreScan / scheduleNextSearchScan (lines 655-673), carrying the
number of new items that scan finds. -/
inductive ScanEvent where
  | initialScan (target : String) (newCount : Nat)
  | rescheduledScan (target : String) (newCount : Nat)
deriving Repr, DecidableEq

/-- Whether an event is a rescheduled run (whose callback clears the global
flag before checking). -/
def ScanEvent.clearsFlag : ScanEvent → Bool
  | .initialScan _ _ => false
  | .rescheduledScan _ _ => true

/-- What one run records: which target ran, the flag value its notification
gate read, and how many of its new items were dispatched. -/
structure RunLog where
  target : String
  flagAtScan : Bool
  newCount : Nat
  notifiedCount : Nat
deriving Repr, DecidableEq

/-- Number of new items dispatched under a given flag value: the cap of 2 of
the notification gate applies exactly when the flag is read as true. -/
def notifiedUnderFlag (flag : Bool) (newCount : Nat) : Nat :=
  if flag then min newCount 2 else newCount

/-- One event against the global flag: a rescheduled run first assigns
isFirstRun = false (src/index.js lines 656, 669), then the run reads the flag
in its notification gate; an initial run reads the flag unchanged. -/
def stepFlag (flag : Bool) : ScanEvent → Bool × RunLog
  | .initialScan t n =>
      (flag, { target := t, flagAtScan := flag, newCount := n,
               notifiedCount := notifiedUnderFlag flag n })
  | .rescheduledScan t n =>
      (false, { target := t, flagAtScan := false, newCount := n,
                notifiedCount := notifiedUnderFlag false n })

/-- Run a sequence of scan firings against the single global flag, collecting
the per-run logs in order. -/
def runTrace (flag : Bool) : List ScanEvent → Bool × List RunLog
  | [] => (flag, [])
  | e :: rest =>
      let s := stepFlag flag e
      let r := runTrace s.1 rest
      (r.1, s.2 :: r.2)

section CacheLemmas

theorem beq_true_of_eq (a b : String) (h : a = b) : (a == b) = true := by
  simp [h]

theorem beq_false_of_ne (a b : String) (h : ¬ a = b) : (a == b) = false := by
  simp [h]

theorem lookup_cacheSet (c : Cache) (k k2 : String) (v : SeenSet) :
    List.lookup k2 (cacheSet c k v) = if k2 = k then some v else List.lookup k2 c := by
  induction c with
  | nil =>
    by_cases h : k2 = k
    · simp [cacheSet, List.lookup, beq_true_of_eq k2 k h, h]
    · simp [cacheSet, List.lookup, beq_false_of_ne k2 k h, h]
  | cons hd tl ih =>
    obtain ⟨k0, v0⟩ := hd
    by_cases h0 : k0 = k
    · subst h0
      by_cases h2 : k2 = k0
      · simp [cacheSet, List.lookup, beq_true_of_eq k2 k0 h2, h2]
      · simp [cacheSet, List.lookup, beq_false_of_ne k2 k0 h2, h2]
    · by_cases h2 : k2 = k0
      · subst h2
        simp [cacheSet, h0, List.lookup, beq_true_of_eq k2 k2 rfl, h0]
      · simp [cacheSet, h0, List.lookup, beq_false_of_ne k2 k0 h2, ih]

theorem cacheSet_self (c : Cache) (k : String) (v : SeenSet)
    (h : List.lookup k c = some v) : cacheSet c k v = c := by
  induction c with
  | nil => simp [List.lookup] at h
  | cons hd tl ih =>
    obtain ⟨k0, v0⟩ := hd
    by_cases h0 : k0 = k
    · subst h0
      simp [List.lookup, beq_true_of_eq k0 k0 rfl] at h
      simp [cacheSet, h]
    · simp [List.lookup, beq_false_of_ne k k0 (Ne.symm h0)] at h
      simp [cacheSet, h0, ih h]

theorem mem_setAdd (s : List String) (x y : String) :
    y ∈ setAdd s x ↔ y ∈ s ∨ y = x := by
  unfold setAdd
  by_cases h : x ∈ s
  · simp only [if_pos h]
    constructor
    · exact fun hy => Or.inl hy
    · rintro (hy | rfl) <;> [exact hy; exact h]
  · simp [if_neg h]

theorem self_mem_setAdd (s : List String) (x : String) : x ∈ setAdd s x := by
  rw [mem_setAdd]; exact Or.inr rfl

theorem setAdd_of_mem (s : List String) (x : String) (h : x ∈ s) : setAdd s x = s := by
  simp [setAdd, h]

end CacheLemmas

theorem clearOldKey_eq_filter (now maxAgeMs : Int) (seenItems : SeenSet) :
    clearOldKey now maxAgeMs seenItems =
      seenItems.filter (fun itemId => !(shouldEvict now maxAgeMs itemId)) := by
  unfold clearOldKey
  by_cases hempty :
      (seenItems.filter (fun itemId => shouldEvict now maxAgeMs itemId)).isEmpty = true
  · rw [if_pos hempty]
    rw [List.isEmpty_iff, List.filter_eq_nil_iff] at hempty
    exact (List.filter_eq_self.mpr (fun x hx => by simpa using hempty x hx)).symm
  · rw [if_neg hempty]
    apply List.filter_congr
    intro x hx
    have hcont : (seenItems.filter (fun itemId => shouldEvict now maxAgeMs itemId)).contains x
        = decide (x ∈ seenItems.filter (fun itemId => shouldEvict now maxAgeMs itemId)) := by
      simp [List.elem_iff]
    rw [hcont]
    by_cases hev : shouldEvict now maxAgeMs x = true
    · simp [List.mem_filter, hx, hev]
    · simp [List.mem_filter, hev]

theorem mem_clearOldKey (now maxAgeMs : Int) (seenItems : SeenSet) (itemId : String) :
    itemId ∈ clearOldKey now maxAgeMs seenItems ↔
      itemId ∈ seenItems ∧ shouldEvict now maxAgeMs itemId = false := by
  rw [clearOldKey_eq_filter, List.mem_filter]
  simp

theorem lookup_clearOldItems (c : Cache) (now maxAgeHours : Int) (k : String) :
    List.lookup k (clearOldItems c now maxAgeHours) =
      (List.lookup k c).map (clearOldKey now (maxAgeHours * 60 * 60 * 1000)) := by
  induction c with
  | nil => simp [clearOldItems, List.lookup]
  | cons hd tl ih =>
    obtain ⟨k0, v0⟩ := hd
    by_cases h : k = k0
    · simp [clearOldItems, List.lookup, beq_true_of_eq k k0 h]
    · simpa [clearOldItems, List.lookup, beq_false_of_ne k k0 h] using ih

section ScanLemmas

/-- The loop cache evolves exactly as in the collect-only pass. -/
theorem storeScanLoop_cache (firstRun : Bool) (ty identifier : String)
    (items : List RawItem) :
    ∀ c newItems notifiedItems,
      (storeScanLoop firstRun ty identifier c newItems notifiedItems items).cache =
        (collectNewItems ty identifier c items).1 := by
  induction items with
  | nil => intro c a k; rfl
  | cons item rest ih =>
    intro c a k
    unfold storeScanLoop collectNewItems
    by_cases hnew : (isNewItem c ty identifier item.id).result = true
    · by_cases hcap : (!firstRun || decide (k < 2)) = true
      · simp only [hnew, hcap, if_true, ite_true]
        exact ih _ _ _
      · simp only [hnew, if_true, ite_true, Bool.not_eq_true] at *
        simp only [hcap, if_false]
        exact ih _ _ _
    · simp only [Bool.not_eq_true] at hnew
      simp only [hnew, if_false, ite_false]
      exact ih _ _ _

/-- The new-item count of the loop is the starting count plus the length of
newItemsList from the collect-only pass. -/
theorem storeScanLoop_newCount (firstRun : Bool) (ty identifier : String)
    (items : List RawItem) :
    ∀ c newItems notifiedItems,
      (storeScanLoop firstRun ty identifier c newItems notifiedItems items).newCount =
        newItems + (collectNewItems ty identifier c items).2.length := by
  induction items with
  | nil => intro c a k; rfl
  | cons item rest ih =>
    intro c a k
    unfold storeScanLoop collectNewItems
    by_cases hnew : (isNewItem c ty identifier item.id).result = true
    · by_cases hcap : (!firstRun || decide (k < 2)) = true
      · simp only [hnew, hcap, if_true, ite_true, List.length_cons]
        rw [ih]
        omega
      · have hcap2 : (!firstRun || decide (k < 2)) = false := by
          rcases Bool.eq_false_or_eq_true (!firstRun || decide (k < 2)) with h | h
          · exact absurd h hcap
          · exact h
        simp only [hnew, hcap2, Bool.false_eq_true, if_true, if_false, ite_true, ite_false,
          List.length_cons]
        rw [ih]
        omega
    · simp only [Bool.not_eq_true] at hnew
      simp only [hnew, if_false, ite_false]
      exact ih _ _ _

/-- With the first-run flag set, the loop notifies exactly the first
2 - notifiedItems entries of newItemsList. -/
theorem storeScanLoop_notified_firstRun (ty identifier : String)
    (items : List RawItem) :
    ∀ c newItems notifiedItems,
      (storeScanLoop true ty identifier c newItems notifiedItems items).notified =
        (collectNewItems ty identifier c items).2.take (2 - notifiedItems) := by
  induction items with
  | nil => intro c a k; simp [storeScanLoop, collectNewItems]
  | cons item rest ih =>
    intro c a k
    unfold storeScanLoop collectNewItems
    by_cases hnew : (isNewItem c ty identifier item.id).result = true
    · by_cases hcap : k < 2
      · have hc : (!true || decide (k < 2)) = true := by simp [hcap]
        simp only [hnew, hc, if_true, ite_true]
        rw [ih]
        have h2 : 2 - k = (2 - (k + 1)) + 1 := by omega
        rw [h2, List.take_succ_cons]
      · have hc : (!true || decide (k < 2)) = false := by simp [hcap]
        simp only [hnew, hc, Bool.false_eq_true, if_true, ite_false]
        rw [ih]
        have h2 : 2 - k = 0 := by omega
        rw [h2]
        simp
    · simp only [Bool.not_eq_true] at hnew
      simp only [hnew, if_false, ite_false]
      exact ih _ _ _

/-- Without the first-run flag, the loop notifies every new item, in order. -/
theorem storeScanLoop_notified_notFirstRun (ty identifier : String)
    (items : List RawItem) :
    ∀ c newItems notifiedItems,
      (storeScanLoop false ty identifier c newItems notifiedItems items).notified =
        (collectNewItems ty identifier c items).2 := by
  induction items with
  | nil => intro c a k; rfl
  | cons item rest ih =>
    intro c a k
    unfold storeScanLoop collectNewItems
    by_cases hnew : (isNewItem c ty identifier item.id).result = true
    · simp only [hnew, Bool.not_false, Bool.true_or, if_true, ite_true]
      rw [ih]
    · simp only [Bool.not_eq_true] at hnew
      simp only [hnew, if_false, ite_false]
      exact ih _ _ _

/-- newItemsList is a subsequence of the fetched items: source order preserved. -/
theorem collectNewItems_sublist (ty identifier : String) (items : List RawItem) :
    ∀ c, (collectNewItems ty identifier c items).2.Sublist items := by
  induction items with
  | nil => intro c; simp [collectNewItems]
  | cons item rest ih =>
    intro c
    unfold collectNewItems
    by_cases hnew : (isNewItem c ty identifier item.id).result = true
    · simp only [hnew, ite_true]
      exact List.Sublist.cons₂ item (ih _)
    · simp only [Bool.not_eq_true] at hnew
      simp only [hnew, ite_false]
      exact List.Sublist.cons item (ih _)

theorem collectNewItems_cons (ty identifier : String) (c : Cache) (item : RawItem)
    (rest : List RawItem) :
    collectNewItems ty identifier c (item :: rest) =
      if (isNewItem c ty identifier item.id).result then
        ((collectNewItems ty identifier (isNewItem c ty identifier item.id).cache rest).1,
          item :: (collectNewItems ty identifier (isNewItem c ty identifier item.id).cache rest).2)
      else collectNewItems ty identifier (isNewItem c ty identifier item.id).cache rest := rfl

/-- Splitting the batch: the items collected from l1 ++ l2 are the items
collected from l1 followed by the items collected from l2 against the cache
state left by l1 — each item's novelty is decided by isNewItem at its own
check time, and the output preserves source order. -/
theorem collectNewItems_append (ty identifier : String) (l1 l2 : List RawItem) :
    ∀ c, collectNewItems ty identifier c (l1 ++ l2) =
      ((collectNewItems ty identifier (collectNewItems ty identifier c l1).1 l2).1,
        (collectNewItems ty identifier c l1).2 ++
          (collectNewItems ty identifier (collectNewItems ty identifier c l1).1 l2).2) := by
  induction l1 with
  | nil => intro c; simp [collectNewItems]
  | cons item rest ih =>
    intro c
    simp only [List.cons_append, collectNewItems_cons]
    by_cases hnew : (isNewItem c ty identifier item.id).result = true
    · simp [hnew, ih]
    · simp only [Bool.not_eq_true] at hnew
      simp [hnew, ih]

end ScanLemmas

section PersistLemmas

theorem mem_foldl_setAdd (l : List String) :
    ∀ s x, x ∈ l.foldl setAdd s ↔ x ∈ s ∨ x ∈ l := by
  induction l with
  | nil => intro s x; simp
  | cons a rest ih =>
    intro s x
    simp only [List.foldl_cons, ih, mem_setAdd, List.mem_cons]
    tauto

theorem mem_jsNewSet (l : List String) (x : String) : x ∈ jsNewSet l ↔ x ∈ l := by
  unfold jsNewSet
  rw [mem_foldl_setAdd]
  simp

theorem jsNewSet_eq_nil_iff (l : List String) : jsNewSet l = [] ↔ l = [] := by
  constructor
  · intro h
    rw [List.eq_nil_iff_forall_not_mem]
    intro x hx
    have := (mem_jsNewSet l x).mpr hx
    rw [h] at this
    simp at this
  · intro h
    subst h
    rfl

theorem serializeCache_eq (c : Cache) : serializeCache c = c := by
  induction c with
  | nil => rfl
  | cons hd tl ih => simp [serializeCache]

theorem lookup_loadCacheDoc (doc : PersistedDoc) (k : String) :
    List.lookup k (loadCacheDoc doc) = (List.lookup k doc).map jsNewSet := by
  induction doc with
  | nil => simp [loadCacheDoc, List.lookup]
  | cons hd tl ih =>
    obtain ⟨k0, v0⟩ := hd
    by_cases h : k = k0
    · simp [loadCacheDoc, List.lookup, beq_true_of_eq k k0 h]
    · simpa [loadCacheDoc, List.lookup, beq_false_of_ne k k0 h] using ih

/-- The isNewItem return value is the membership test against the stored set. -/
theorem isNewItem_result (c : Cache) (ty identifier itemId : String) :
    (isNewItem c ty identifier itemId).result =
      !(decide (itemId ∈ seenOf c (getCacheKey ty identifier))) := by
  unfold isNewItem
  by_cases hk : (List.lookup (getCacheKey ty identifier) c).isSome = true
  · by_cases hm : itemId ∈ seenOf c (getCacheKey ty identifier)
    · simp [hk, hm]
    · simp [hk, hm]
  · have hnone : List.lookup (getCacheKey ty identifier) c = none := by
      rcases h : List.lookup (getCacheKey ty identifier) c with _ | v
      · rfl
      · rw [h] at hk; simp at hk
    have hseen : seenOf c (getCacheKey ty identifier) = [] := by
      simp [seenOf, hnone]
    have hseen2 :
        seenOf (cacheSet c (getCacheKey ty identifier) []) (getCacheKey ty identifier) = [] := by
      simp [seenOf, lookup_cacheSet]
    simp [hk, hseen2, hseen]

/-- isFirstScan is the emptiness test against the stored set. -/
theorem isFirstScan_eq (c : Cache) (ty identifier : String) :
    isFirstScan c ty identifier = (seenOf c (getCacheKey ty identifier)).isEmpty := by
  unfold isFirstScan seenOf
  rcases List.lookup (getCacheKey ty identifier) c with _ | s
  · rfl
  · rfl

end PersistLemmas

theorem lookup_rearmTarget (table : TimerTable) (name k : String) (delayMs : Nat) :
    List.lookup k (rearmTarget table name delayMs) =
      if k = name then some delayMs else List.lookup k table := by
  induction table with
  | nil =>
    by_cases h : k = name
    · simp [rearmTarget, List.lookup, beq_true_of_eq k name h, h]
    · simp [rearmTarget, List.lookup, beq_false_of_ne k name h, h]
  | cons hd tl ih =>
    obtain ⟨n0, d0⟩ := hd
    by_cases h0 : n0 = name
    · subst h0
      by_cases h2 : k = n0
      · simp [rearmTarget, List.lookup, beq_true_of_eq k n0 h2, h2]
      · simp [rearmTarget, List.lookup, beq_false_of_ne k n0 h2, h2]
    · by_cases h2 : k = n0
      · subst h2
        simp [rearmTarget, h0, List.lookup, beq_true_of_eq k k rfl, h0]
      · simp [rearmTarget, h0, List.lookup, beq_false_of_ne k n0 h2, ih]

theorem runTrace_flag (events : List ScanEvent) :
    ∀ flag, (runTrace flag events).1 = (flag && events.all (fun e => !e.clearsFlag)) := by
  induction events with
  | nil => intro flag; simp [runTrace]
  | cons e rest ih =>
    intro flag
    cases e with
    | initialScan t n =>
      simp [runTrace, stepFlag, ScanEvent.clearsFlag, ih, Bool.and_assoc]
    | rescheduledScan t n =>
      simp [runTrace, stepFlag, ScanEvent.clearsFlag, ih]

theorem runTrace_false_uncapped (events : List ScanEvent) :
    ((runTrace false events).2.all (fun lg => lg.notifiedCount == lg.newCount)) = true := by
  induction events with
  | nil => simp [runTrace]
  | cons e rest ih =>
    cases e with
    | initialScan t n => simp [runTrace, stepFlag, notifiedUnderFlag, ih]
    | rescheduledScan t n => simp [runTrace, stepFlag, notifiedUnderFlag, ih]

theorem runTrace_true_initial (pairs : List (String × Nat)) :
    ((runTrace true (pairs.map (fun p => ScanEvent.initialScan p.1 p.2))).2.all
      (fun lg => lg.notifiedCount == min lg.newCount 2)) = true := by
  induction pairs with
  | nil => simp [runTrace]
  | cons p rest ih =>
    simp [runTrace, stepFlag, notifiedUnderFlag, ih]

section MoreCacheLemmas

theorem lookup_updateSeenItems_self (c : Cache) (ty identifier : String) (ids : List String) :
    List.lookup (getCacheKey ty identifier) (updateSeenItems c ty identifier ids) =
      some (ids.foldl setAdd (seenOf c (getCacheKey ty identifier))) := by
  unfold updateSeenItems
  by_cases hk : (List.lookup (getCacheKey ty identifier) c).isSome = true
  · simp [hk, lookup_cacheSet]
  · have hnone : List.lookup (getCacheKey ty identifier) c = none := by
      rcases h : List.lookup (getCacheKey ty identifier) c with _ | v
      · rfl
      · rw [h] at hk; simp at hk
    simp [hk, lookup_cacheSet, seenOf, hnone]

theorem seenOf_isNewItem (c : Cache) (ty identifier itemId : String) :
    seenOf (isNewItem c ty identifier itemId).cache (getCacheKey ty identifier) =
      setAdd (seenOf c (getCacheKey ty identifier)) itemId := by
  unfold isNewItem seenOf
  by_cases hk : (List.lookup (getCacheKey ty identifier) c).isSome = true
  · by_cases hm : itemId ∈ (List.lookup (getCacheKey ty identifier) c).getD []
    · simp [hk, hm, setAdd_of_mem _ _ hm]
    · simp [hk, hm, lookup_cacheSet]
  · have hnone : List.lookup (getCacheKey ty identifier) c = none := by
      rcases h : List.lookup (getCacheKey ty identifier) c with _ | v
      · rfl
      · rw [h] at hk; simp at hk
    simp [hk, hnone, lookup_cacheSet]

theorem seenOf_loadCacheDoc (doc : PersistedDoc) (k : String) :
    seenOf (loadCacheDoc doc) k = jsNewSet (seenOf doc k) := by
  unfold seenOf
  rw [lookup_loadCacheDoc]
  rcases List.lookup k doc with _ | s
  · rfl
  · rfl

theorem isEmpty_jsNewSet (l : List String) : (jsNewSet l).isEmpty = l.isEmpty := by
  rcases h : jsNewSet l with _ | ⟨a, rest⟩
  · rw [(jsNewSet_eq_nil_iff l).mp h]
  · have : l ≠ [] := by
      intro hl
      rw [hl] at h
      simp [jsNewSet] at h
    simp [List.isEmpty_iff, this]

theorem updateSeenItems_noop (c : Cache) (ty identifier : String) (ids : List String)
    (hsome : (List.lookup (getCacheKey ty identifier) c).isSome = true)
    (hfold : ids.foldl setAdd (seenOf c (getCacheKey ty identifier)) =
      seenOf c (getCacheKey ty identifier)) :
    updateSeenItems c ty identifier ids = c := by
  unfold updateSeenItems
  simp only [hsome, if_true, hfold]
  apply cacheSet_self
  rcases h : List.lookup (getCacheKey ty identifier) c with _ | v
  · rw [h] at hsome; simp at hsome
  · simp [seenOf, h]

end MoreCacheLemmas

/-! Claim theorems. -/

/-- C1: with the first-run flag true the scan notifies exactly the first two of
the new items, in order (so with n > 2 new items exactly 2 are dispatched and
the remaining n - 2 are suppressed and logged, never dispatched); with the flag
false every new item is dispatched in order. Holds for the interleaved loop of
checkEbayStore (src/index.js) and for the collect-then-slice gate of
checkEbaySearchAPI (src/eBayScanner.js). -/
theorem first_run_notification_cap (c : Cache) (name : String) (items : List RawItem) :
    (checkEbayStore true c name items).notified =
        (collectNewItems "store" name c items).2.take 2 ∧
    (checkEbayStore true c name items).notified.length =
        min (collectNewItems "store" name c items).2.length 2 ∧
    (checkEbayStore true c name items).newCount =
        (collectNewItems "store" name c items).2.length ∧
    suppressedLogCount true (checkEbayStore true c name items).newCount =
        (collectNewItems "store" name c items).2.length -
          min (collectNewItems "store" name c items).2.length 2 ∧
    (checkEbayStore false c name items).notified = (collectNewItems "store" name c items).2 ∧
    (checkEbaySearchAPI true c name items).2.2 =
        (collectNewItems "search" name c items).2.take 2 ∧
    (checkEbaySearchAPI false c name items).2.2 = (collectNewItems "search" name c items).2 := by
  have h1 := storeScanLoop_notified_firstRun "store" name items c 0 0
  have h2 := storeScanLoop_newCount true "store" name items c 0 0
  have h5 := storeScanLoop_notified_notFirstRun "store" name items c 0 0
  refine ⟨h1, ?_, ?_, ?_, h5, rfl, rfl⟩
  · rw [checkEbayStore, h1]
    rw [List.length_take]
    omega
  · rw [checkEbayStore, h2]
    omega
  · rw [checkEbayStore, h2, suppressedLogCount]
    split
    · rename_i h
      simp only [Bool.true_and, decide_eq_true_eq] at h
      omega
    · rename_i h
      simp only [Bool.true_and, decide_eq_true_eq] at h
      omega

/-- C2: when the awaited scan attempt raises a fetch error, the timer callback
catches it at the run boundary, logs it, reports it on the error channel, does
not terminate the process, and still re-arms the target's timer with
interval * 60 * 1000 + jitter * 1000 where the jitter drawn by
getRandomDelay(1, 15) lies in [1, 15]; rearming one target leaves every other
target's pending timer unchanged. -/
theorem scheduler_survives_fetch_error (msg : String) (tgt : Target)
    (r : Fin 15) (table : TimerTable) (k : String) :
    (scanTimerCallback (.fetchError msg) tgt (getRandomDelay 1 15 r)).processTerminated
        = false ∧
    (scanTimerCallback (.fetchError msg) tgt (getRandomDelay 1 15 r)).errorLogged = true ∧
    (scanTimerCallback (.fetchError msg) tgt (getRandomDelay 1 15 r)).rescheduledDelayMs =
        some (tgt.interval * 60 * 1000 + getRandomDelay 1 15 r * 1000) ∧
    1 ≤ getRandomDelay 1 15 r ∧ getRandomDelay 1 15 r ≤ 15 ∧
    List.lookup k
        (rearmTarget table tgt.name (nextScanDelayMs tgt.interval (getRandomDelay 1 15 r))) =
      (if k = tgt.name then some (nextScanDelayMs tgt.interval (getRandomDelay 1 15 r))
        else List.lookup k table) := by
  refine ⟨rfl, rfl, rfl, ?_, ?_, lookup_rearmTarget table tgt.name k _⟩
  · simp [getRandomDelay]
  · have := r.isLt
    simp only [getRandomDelay]
    omega

/-- C3 as stated is false: clearOldItems gives an identifier with no
'-'-separated second segment the fallback timestamp 0 — not age zero — so it
is evicted whenever now - 0 exceeds the age window. Here "widget" embeds no
timestamp (its split has a single segment) yet is removed. -/
theorem clearOldItems_drops_untimestamped_id :
    (splitDash "widget").length = 1 ∧
    clearOldItems [("store:acme", ["widget"])] 1700000000000 24 = [("store:acme", [])] := by
  constructor
  · decide
  · decide

/-- C3 amended: clearOldItems(maxAgeHours) removes a stored identifier iff
now - t > maxAgeHours in milliseconds, where t is the timestamp parsed from
the identifier's second '-'-separated segment with parseInt, the segment
defaulting to '0' (hence t = 0, oldest possible) when it is missing or empty;
an identifier whose second segment parses to NaN is retained. In particular an
identifier with no '-' at all, such as "widget", is evicted exactly when
now > maxAgeMs, and one with an unparseable non-empty segment, such as
"abc-xyz", is always retained. -/
theorem clearOldItems_boundary (c : Cache) (now maxAgeHours : Int) (k itemId : String) :
    (itemId ∈ seenOf (clearOldItems c now maxAgeHours) k ↔
      itemId ∈ seenOf c k ∧
        shouldEvict now (maxAgeHours * 60 * 60 * 1000) itemId = false) ∧
    shouldEvict now (maxAgeHours * 60 * 60 * 1000) "widget" =
      decide (now > maxAgeHours * 60 * 60 * 1000) ∧
    shouldEvict now (maxAgeHours * 60 * 60 * 1000) "abc-xyz" = false := by
  refine ⟨?_, ?_, ?_⟩
  · unfold seenOf
    rw [lookup_clearOldItems]
    rcases List.lookup k c with _ | s
    · simp
    · simpa using mem_clearOldKey now (maxAgeHours * 60 * 60 * 1000) s itemId
  · have hts : embeddedTimestamp "widget" = some 0 := by decide
    rw [shouldEvict, hts]
    norm_num
  · have hts : embeddedTimestamp "abc-xyz" = none := by decide
    rw [shouldEvict, hts]

/-- C4: after markSeen (updateSeenItems) of an identifier, a subsequent isNew
check for it returns false — in both the mark-on-check variant
(src/item-cache.js) and the check-only variant (src/unnamed/part_000) — and a
second markSeen with the same identifier leaves the stored cache literally
unchanged (same membership, stable size). -/
theorem markSeen_idempotent_novelty (c : Cache) (ty identifier itemId : String) :
    (isNewItem (updateSeenItems c ty identifier [itemId]) ty identifier itemId).result
        = false ∧
    isNewItemCheckOnly (updateSeenItems c ty identifier [itemId]) ty identifier itemId
        = false ∧
    updateSeenItems (updateSeenItems c ty identifier [itemId]) ty identifier [itemId] =
      updateSeenItems c ty identifier [itemId] := by
  have hlk := lookup_updateSeenItems_self c ty identifier [itemId]
  have hseen : seenOf (updateSeenItems c ty identifier [itemId]) (getCacheKey ty identifier)
      = setAdd (seenOf c (getCacheKey ty identifier)) itemId := by
    simp [seenOf, hlk]
  have hmem : itemId ∈ seenOf (updateSeenItems c ty identifier [itemId])
      (getCacheKey ty identifier) := by
    rw [hseen]; exact self_mem_setAdd _ _
  refine ⟨?_, ?_, ?_⟩
  · rw [isNewItem_result]
    simp [hmem]
  · rw [isNewItemCheckOnly]
    simp [hmem]
  · apply updateSeenItems_noop
    · rw [hlk]; rfl
    · simp only [List.foldl_cons, List.foldl_nil]
      exact setAdd_of_mem _ _ hmem

/-- C5: serializing the cache to its persisted form (Map to object of arrays)
and loading that document into a fresh store yields a state giving identical
isNewItem, check-only isNewItem and isFirstScan answers for every
(targetKind, targetId, itemId). -/
theorem cache_roundtrip_preserves_answers (c : Cache) (ty identifier itemId : String) :
    (isNewItem (loadCacheDoc (serializeCache c)) ty identifier itemId).result =
        (isNewItem c ty identifier itemId).result ∧
    isNewItemCheckOnly (loadCacheDoc (serializeCache c)) ty identifier itemId =
        isNewItemCheckOnly c ty identifier itemId ∧
    isFirstScan (loadCacheDoc (serializeCache c)) ty identifier =
        isFirstScan c ty identifier := by
  rw [serializeCache_eq]
  have hseen : seenOf (loadCacheDoc c) (getCacheKey ty identifier) =
      jsNewSet (seenOf c (getCacheKey ty identifier)) := seenOf_loadCacheDoc c _
  refine ⟨?_, ?_, ?_⟩
  · rw [isNewItem_result, isNewItem_result, hseen]
    by_cases hm : itemId ∈ seenOf c (getCacheKey ty identifier)
    · simp [hm, (mem_jsNewSet _ itemId).mpr hm]
    · have : itemId ∉ jsNewSet (seenOf c (getCacheKey ty identifier)) := by
        rw [mem_jsNewSet]; exact hm
      simp [hm, this]
  · rw [isNewItemCheckOnly, isNewItemCheckOnly, hseen]
    by_cases hm : itemId ∈ seenOf c (getCacheKey ty identifier)
    · simp [hm, (mem_jsNewSet _ itemId).mpr hm]
    · have : itemId ∉ jsNewSet (seenOf c (getCacheKey ty identifier)) := by
        rw [mem_jsNewSet]; exact hm
      simp [hm, this]
  · rw [isFirstScan_eq, isFirstScan_eq, hseen, isEmpty_jsNewSet]

/-- C6: the novelty filter returns the subsequence of the fetched items that
were new at their own check time, preserving source order: newItemsList is a
sublist of the input, splitting the input splits the output at the cache state
reached in between, on the concrete batch [A, B, C] with only B unseen it
returns [B], and the dispatched items are a sublist (prefix) of newItemsList
in both gate variants. -/
theorem novelty_filter_order_preserving (c : Cache) (ty name : String)
    (items l1 l2 : List RawItem) (firstRun : Bool) :
    (collectNewItems ty name c items).2.Sublist items ∧
    collectNewItems ty name c (l1 ++ l2) =
      ((collectNewItems ty name (collectNewItems ty name c l1).1 l2).1,
        (collectNewItems ty name c l1).2 ++
          (collectNewItems ty name (collectNewItems ty name c l1).1 l2).2) ∧
    (collectNewItems "store" "acme"
        (updateSeenItems [] "store" "acme" ["A", "C"])
        [{ id := "A", title := "a" }, { id := "B", title := "b" },
          { id := "C", title := "c" }]).2 = [{ id := "B", title := "b" }] ∧
    (checkEbaySearchAPI firstRun c name items).2.2.Sublist
      (collectNewItems "search" name c items).2 ∧
    (checkEbayStore firstRun c name items).notified.Sublist
      (collectNewItems "store" name c items).2 := by
  refine ⟨collectNewItems_sublist ty name items c, collectNewItems_append ty name l1 l2 c,
    by decide, ?_, ?_⟩
  · unfold checkEbaySearchAPI
    cases firstRun
    · simp
    · simp [List.take_sublist]
  · cases firstRun
    · rw [checkEbayStore, storeScanLoop_notified_notFirstRun "store" name items c 0 0]
    · rw [checkEbayStore, storeScanLoop_notified_firstRun "store" name items c 0 0]
      exact List.take_sublist _ _

/-- C7 is violated by the src/index.js variant: its rescheduling callback
starts checkEbayStore without awaiting it and arms the next timer in the same
tick, so for any run of positive duration the timer for the next run is armed
before the current run finishes, and the next run starts before the current
one finishes whenever the run outlasts the armed delay; the src/eBayScanner.js
variant awaits the run and is serialized as the claim (and the code comment
"Schedule next scan after this one completes") intends. -/
theorem unawaited_reschedule_arms_before_finish :
    (runCycleUnawaited 0 2000 301000).armTime <
        (runCycleUnawaited 0 2000 301000).runFinish ∧
    (runCycleUnawaited 0 400000 301000).nextRunStart <
        (runCycleUnawaited 0 400000 301000).runFinish ∧
    (runCycleAwaited 0 400000 301000).armTime =
        (runCycleAwaited 0 400000 301000).runFinish ∧
    (runCycleAwaited 0 400000 301000).runFinish ≤
        (runCycleAwaited 0 400000 301000).nextRunStart := by
  refine ⟨?_, ?_, rfl, ?_⟩ <;> decide

/-- C8 as stated is false: the first-run flag is one module-global boolean, so
after target A's first rescheduled run clears it, target B's very first run
already reads it as false and dispatches all 10 of its new items instead of
keeping the cap of 2. -/
theorem global_flag_lost_by_unscanned_target :
    ((runTrace true
        [ScanEvent.initialScan "A" 3, ScanEvent.rescheduledScan "A" 0,
          ScanEvent.initialScan "B" 10]).2.map
      (fun lg => (lg.target, lg.flagAtScan, lg.notifiedCount))) =
      [("A", true, 2), ("A", false, 0), ("B", false, 10)] := by
  decide

/-- C8 amended: the first-run flag is a single process-wide boolean, set false
at the start of the first rescheduled run of any target; it stays true exactly
while no rescheduled run has fired (so until then every run of every target is
capped at 2), and once false every later run of every target — including the
first run of a target not yet scanned — dispatches all its new items. -/
theorem global_first_run_flag_semantics (events : List ScanEvent) (flag : Bool)
    (pairs : List (String × Nat)) :
    (runTrace flag events).1 = (flag && events.all (fun e => !e.clearsFlag)) ∧
    ((runTrace false events).2.all (fun lg => lg.notifiedCount == lg.newCount)) = true ∧
    ((runTrace true (pairs.map (fun p => ScanEvent.initialScan p.1 p.2))).2.all
      (fun lg => lg.notifiedCount == min lg.newCount 2)) = true :=
  ⟨runTrace_flag events flag, runTrace_false_uncapped events, runTrace_true_initial pairs⟩

/-- C9: cache I/O failures are never fatal and never change dedup answers — a
failed read or parse at startup yields the empty store (every key is a first
scan), and a failed persist is logged, raises nothing, and leaves the
in-memory cache exactly as before the write attempt, so isNewItem and
isFirstScan answers are unchanged. -/
theorem cache_io_failures_nonfatal (c : Cache) (msg : String) (ty identifier itemId : String) :
    loadCache (.readFailed msg) = [] ∧
    loadCache (.contents none) = [] ∧
    isFirstScan (loadCache (.readFailed msg)) ty identifier = true ∧
    (isNewItem (loadCache (.contents none)) ty identifier itemId).result = true ∧
    (saveCache c false).memory = c ∧
    (saveCache c false).exceptionEscaped = false ∧
    (saveCache c false).errorLogged = true ∧
    (isNewItem (saveCache c false).memory ty identifier itemId).result =
        (isNewItem c ty identifier itemId).result ∧
    isFirstScan (saveCache c false).memory ty identifier = isFirstScan c ty identifier := by
  refine ⟨rfl, rfl, rfl, ?_, rfl, rfl, rfl, rfl, rfl⟩
  rw [isNewItem_result]
  simp [loadCache, seenOf, List.lookup]

/-- C10: isNewItem is the mark-on-check variant — its return value is the
fresh-membership test, a true return has inserted the identifier and triggered
a persist, the identifier is stored afterwards in every case, and an
immediately repeated call returns false, so isNewItem returns true at most
once per identifier absent eviction. -/
theorem isNewItem_mark_on_check (c : Cache) (ty identifier itemId : String) :
    (isNewItem c ty identifier itemId).result =
        !(decide (itemId ∈ seenOf c (getCacheKey ty identifier))) ∧
    (isNewItem c ty identifier itemId).persistTriggered =
        (isNewItem c ty identifier itemId).result ∧
    itemId ∈ seenOf (isNewItem c ty identifier itemId).cache (getCacheKey ty identifier) ∧
    (isNewItem (isNewItem c ty identifier itemId).cache ty identifier itemId).result
        = false := by
  refine ⟨isNewItem_result c ty identifier itemId, ?_, ?_, ?_⟩
  · unfold isNewItem
    by_cases hm : itemId ∈ seenOf
        (if (List.lookup (getCacheKey ty identifier) c).isSome = true then c
          else cacheSet c (getCacheKey ty identifier) []) (getCacheKey ty identifier)
    · simp [hm]
    · simp [hm]
  · rw [seenOf_isNewItem]
    exact self_mem_setAdd _ _
  · rw [isNewItem_result, seenOf_isNewItem]
    simp [self_mem_setAdd]

end EbayScanner
